import Mathlib

/-!
Shallow embedding of faust/worker.py (the Worker process supervisor) and
proofs about its specification.

The source is a Python module driving an asyncio event loop.  We embed:

* pure helpers and error policy as Lean functions over an explicit error
  type (Python exceptions become constructors of PyErr);
* the signal-shutdown path (Worker._on_sigint and Worker._stop_on_signal)
  as a small-step cooperative machine: each await in the source is a
  scheduling point, tasks are dispatched round robin, and the status the
  event loop reports from is_running is an environment function
  Nat -> Bool consulted once per poll;
* the stats loop (Worker._stats) as a program-counter machine ticked once
  per time unit, with the stop flag supplied as a time-indexed signal;
* the deferred-readiness path (Worker.on_startup_finished) with the
  scheduled call_later callbacks kept as a list of due times;
* the construction-time beacon wiring (Worker.__init__) and the sensor
  wiring (Worker.on_init_dependencies) over functional records.

Parts of the repository that the claims depend on but that are not part of
the given fragment (the Service base class in faust/utils/services.py and
the Beacon tree) are modelled from the specification; each such definition
carries a doc comment starting with: Modelled from the spec.
-/

namespace Faust

/-- Python exception classes that occur on the paths this file verifies.
RuntimeError carries its message (str(exc) in the source). -/
inductive PyErr where
  | runtimeError (msg : String)
  | indexError
  | valueError (msg : String)
  | systemExit
deriving DecidableEq

/-- Message substring tested by the except clause in
Worker.execute_from_commandline (faust/worker.py line 183). -/
def loopStoppedMsg : String := "Event loop stopped before Future completed"

/-- Does the pattern occur at the head of the character list. -/
def charsLead : List Char → List Char → Bool
  | [], _ => true
  | _ :: _, [] => false
  | p :: ps, c :: cs => p == c && charsLead ps cs

/-- Does the pattern occur anywhere in the character list (the Python
substring test, pat in s). -/
def charsSub (pat : List Char) : List Char → Bool
  | [] => charsLead pat []
  | c :: cs => charsLead pat (c :: cs) || charsSub pat cs

/-- Python substring containment, pat in s. -/
def strContainsStr (s pat : String) : Bool :=
  charsSub pat.data s.data

/-- The benign race class of section 7 of the spec: a RuntimeError whose
message indicates the event loop already stopped. -/
def benignRace : PyErr → Bool
  | .runtimeError msg => strContainsStr msg loopStoppedMsg
  | _ => false

/-- The try/except wrapper of Worker.execute_from_commandline
(faust/worker.py lines 179-185): run the body; catch RuntimeError; re-raise
it unless its message contains loopStoppedMsg; every other exception class
propagates uncaught. -/
def executeGuard (r : Except PyErr Unit) : Except PyErr Unit :=
  match r with
  | .ok _ => .ok ()
  | .error e =>
    match e with
    | .runtimeError msg =>
        if strContainsStr msg loopStoppedMsg then .ok ()
        else .error (.runtimeError msg)
    | e2 => .error e2

/-! ## The signal shutdown path

Worker._on_sigint (faust/worker.py lines 157-165) and
Worker._stop_on_signal (lines 167-177), embedded as a small-step
cooperative machine.  Each await in the source is a scheduling point;
pending _stop_on_signal tasks are dispatched round robin; the value the
event loop reports from is_running is an environment function
running : Nat -> Bool consulted once per poll, in order. -/

/-- Log lines emitted by Worker._stop_on_signal, as events. -/
inductive LogEv where
  | stoppingOnSignal
  | waitingForLoop
  | closingLoop
  | exiting
deriving DecidableEq

/-- The literal text of each logger.info line in Worker._stop_on_signal. -/
def logText : LogEv → String
  | .stoppingOnSignal => "Worker: Stopping on signal received..."
  | .waitingForLoop => "Worker: Waiting for event loop to shutdown..."
  | .closingLoop => "Worker: Closing event loop"
  | .exiting => "Worker: exiting"

/-- Console prints on the signal path, as events. -/
inductive OutEv where
  | intBanner
deriving DecidableEq

/-- The literal text printed by Worker._on_sigint. -/
def outText : OutEv → String
  | .intBanner => "-INT- -INT- -INT- -INT- -INT- -INT-"

/-- Program counter of one scheduled _stop_on_signal coroutine, between
its await points: begin is before the first log and the await self.stop();
poll is at the while self.loop.is_running() check; sleeping is inside the
await asyncio.sleep(1.0). -/
inductive StopPc where
  | begin
  | poll
  | sleeping
deriving DecidableEq

/-- State of the worker plus its event loop on the signal path.
stopped and teardowns belong to the Service base (see serviceStop);
tasks is the queue of scheduled _stop_on_signal coroutines; polls counts
the is_running checks made so far (index into the environment); closed
records loop.close(); exits counts SystemExit raises. -/
structure SigSys where
  stopped : Bool
  teardowns : Nat
  tasks : List StopPc
  out : List OutEv
  log : List LogEv
  polls : Nat
  stopRequests : Nat
  closed : Bool
  exits : Nat
deriving DecidableEq

/-- The initial state: steady running worker, nothing scheduled. -/
def sigInit : SigSys :=
  { stopped := false, teardowns := 0, tasks := [], out := [], log := [],
    polls := 0, stopRequests := 0, closed := false, exits := 0 }

/-- Modelled from the spec: Service.stop of faust/utils/services.py is not
part of the given fragment.  Spec section 4.2: stopping is idempotent —
invoking stop on an already-stopped or already-stopping service is a
no-op, not an error.  The stopped flag is the shutdown-request flag of
section 3; teardowns counts how many times the actual teardown (on_stop
plus cascading child stops) ran. -/
def serviceStop (s : SigSys) : SigSys :=
  if s.stopped then s
  else { s with stopped := true, teardowns := s.teardowns + 1 }

/-- One scheduler step: dispatch the head task up to its next await point
(faust/worker.py lines 167-177).  begin: log the stopping line and run
await self.stop(); poll: check self.loop.is_running() — if true, log the
waiting line, call self.loop.stop() and enter await asyncio.sleep(1.0),
else leave the loop, log the closing line, close the loop, log exiting and
raise SystemExit (the task is then finished). -/
def sigStep (running : Nat → Bool) (s : SigSys) : SigSys :=
  match s.tasks with
  | [] => s
  | pc :: rest =>
    match pc with
    | .begin =>
        let s1 := serviceStop { s with log := s.log ++ [.stoppingOnSignal] }
        { s1 with tasks := rest ++ [.poll] }
    | .poll =>
        let isRun := running s.polls
        let s1 := { s with polls := s.polls + 1 }
        if isRun then
          { s1 with log := s1.log ++ [.waitingForLoop],
                    stopRequests := s1.stopRequests + 1,
                    tasks := rest ++ [.sleeping] }
        else
          { s1 with log := s1.log ++ [.closingLoop, .exiting],
                    closed := true,
                    exits := s1.exits + 1,
                    tasks := rest }
    | .sleeping => { s with tasks := rest ++ [.poll] }

/-- Run the scheduler for a given number of steps. -/
def runSig (running : Nat → Bool) : Nat → SigSys → SigSys
  | 0, s => s
  | n + 1, s => runSig running n (sigStep running s)

/-- Outcome of one invocation of the signal handler: returned means
run_until_complete raised RuntimeError (loop already running) which the
handler caught and ignored; blocked means the loop was not running and
run_until_complete would have blocked the handler (never reached for a
handler registered with loop.add_signal_handler, which only fires while
the loop runs). -/
inductive HandlerOutcome where
  | returned
  | blocked
deriving DecidableEq

/-- Worker._on_sigint (faust/worker.py lines 157-165): print the -INT-
banner; asyncio.ensure_future schedules a fresh _stop_on_signal task on
the loop; loop.run_until_complete on the already-running loop raises
RuntimeError immediately, which the except clause swallows with pass. -/
def onSigintH (loopRunning : Bool) (s : SigSys) : SigSys × HandlerOutcome :=
  let s1 : SigSys := { s with out := s.out ++ [.intBanner] }
  let s2 : SigSys := { s1 with tasks := s1.tasks ++ [.begin] }
  if loopRunning then (s2, .returned) else (s2, .blocked)

/-- One delivery of the interrupt signal while the loop is running. -/
def sigDeliver (s : SigSys) : SigSys := (onSigintH true s).1

/-- An environment in which the event loop reports running at every
poll. -/
def alwaysRunning : Nat → Bool := fun _ => true

/-- An environment in which the event loop reports running at the first
n polls and not running afterwards. -/
def runningBefore (n : Nat) : Nat → Bool := fun k => decide (k < n)

/-! ## The stats loop

Worker._stats (faust/worker.py lines 200-206):

    while not self.should_stop:
        await asyncio.sleep(5)
        print(...)

embedded as a program counter ticked once per time unit.  The value of
self.should_stop (an attribute of the Service base, outside the given
fragment; per the spec it is the stop flag, set once stop begins) is
supplied as a time-indexed Boolean signal. -/

/-- Program counter of the _stats coroutine: check is at the while
condition; sleeping k is inside await asyncio.sleep with k ticks left;
done is after the loop exits (the coroutine returned, raising nothing). -/
inductive StatsPc where
  | check
  | sleeping (k : Nat)
  | done
deriving DecidableEq

/-- State of the stats loop: its program counter and how many summaries it
printed so far. -/
structure StatsSt where
  pc : StatsPc
  emits : Nat
deriving DecidableEq

/-- The stats coroutine as just launched. -/
def statsInit : StatsSt := { pc := .check, emits := 0 }

/-- The argument of asyncio.sleep in Worker._stats. -/
def sleepTicks : Nat := 5

/-- One tick of the stats loop.  flag is the value of self.should_stop
observed at this tick.  The flag is consulted only at the while condition;
after the sleep elapses, the print runs unconditionally. -/
def statsStep (flag : Bool) (s : StatsSt) : StatsSt :=
  match s.pc with
  | .check =>
      if flag then { s with pc := .done }
      else { s with pc := .sleeping sleepTicks }
  | .sleeping (k + 1) => { s with pc := .sleeping k }
  | .sleeping 0 => { s with pc := .check, emits := s.emits + 1 }
  | .done => s

/-- Run the stats loop for n ticks starting at time t, reading the stop
flag from the signal at the current time. -/
def statsRun (flag : Nat → Bool) : Nat → Nat → StatsSt → StatsSt
  | _, 0, s => s
  | t, n + 1, s => statsRun flag (t + 1) n (statsStep (flag t) s)

/-- How many more summaries the loop can still print once the stop flag
is true for good: one iff a sleep is in flight (the print after that
sleep runs unconditionally), none otherwise. -/
def statsCap : StatsPc → Nat
  | .sleeping _ => 1
  | _ => 0

/-! ## The deferred readiness transition

Worker.on_startup_finished (faust/worker.py lines 121-129):

    def on_startup_finished(self):
        self.loop.call_later(3.0, self._on_startup_finished)

    def _on_startup_finished(self):
        if self.spinner:
            self.spinner.finish()
            self.spinner = None
            print(...)

The loop.call_later registrations are kept as a list of due times. -/

/-- Spinner flag, scheduled callback due times, and how many times the
ready line was printed. -/
structure ReadySt where
  spinner : Bool
  timers : List Nat
  readyEmits : Nat
deriving DecidableEq

/-- State right after Worker.__init__: the spinner exists, nothing
scheduled. -/
def readyInit : ReadySt := { spinner := true, timers := [], readyEmits := 0 }

/-- Worker.on_startup_finished invoked at time now: unconditionally
registers one more deferred callback, due at now + 3. -/
def on_startup_finished (now : Nat) (s : ReadySt) : ReadySt :=
  { s with timers := s.timers ++ [now + 3] }

/-- Worker._on_startup_finished, the deferred callback: if the spinner is
still there, finish it, null it out and print the ready line; otherwise do
nothing. -/
def onStartupFinishedCb (s : ReadySt) : ReadySt :=
  if s.spinner then
    { s with spinner := false, readyEmits := s.readyEmits + 1 }
  else s

/-- The event loop eventually invokes every registered callback once its
due time passes; invoke them all, in registration order. -/
def fireTimers (s : ReadySt) : ReadySt :=
  s.timers.foldl (fun st _ => onStartupFinishedCb st) { s with timers := [] }

/-! ## Beacons, services and the Worker record

Worker.__init__ (faust/worker.py lines 95-119) and the collaborator
contracts it uses.  The Beacon tree and the Service base class live in
faust/utils/services.py, outside the given fragment, and are modelled
from the spec. -/

/-- Modelled from the spec: Beacon (section 4.1) — an identity node with a
nullable parent reference and a label; not part of the given fragment.
A node with no parent is its own root. -/
inductive Beacon where
  | top (label : String)
  | under (label : String) (parent : Beacon)
deriving DecidableEq

/-- Modelled from the spec: reattach(node, newParent) rebinds
node.parent = newParent (section 4.1). -/
def Beacon.reattach : Beacon → Beacon → Beacon
  | .top l, p => .under l p
  | .under l _, p => .under l p

/-- Modelled from the spec: root is the topmost ancestor, computed by
walking parent links (section 4.1). -/
def Beacon.root : Beacon → Beacon
  | .top l => .top l
  | .under _ p => p.root

/-- Transport descriptor of an Application (consumed by faust_ident). -/
structure Transport where
  driver_version : String
deriving DecidableEq

/-- Website descriptor of an Application (consumed by faust_ident and
print_banner). -/
structure Website where
  driver_version : String
  url : String
deriving DecidableEq

/-- An Application child service: identifier, transport url, transport and
website descriptors, and the sensors registered on it through
add_sensor. -/
structure AppT where
  id : String
  url : String
  transport : Transport
  website : Website
  sensors : List Nat
deriving DecidableEq

/-- AppT.add_sensor: register one more sensor on the application. -/
def AppT.add_sensor (app : AppT) (sensor : Nat) : AppT :=
  { app with sensors := app.sensors ++ [sensor] }

/-- A child service handed to Worker(*services): either an Application
(isinstance(s, AppT) in the source) or a generic supervised service.
Either carries its Beacon. -/
inductive SvcObj where
  | appSvc (a : AppT) (b : Beacon)
  | genSvc (name : String) (b : Beacon)
deriving DecidableEq

/-- The beacon of a child service. -/
def SvcObj.beacon : SvcObj → Beacon
  | .appSvc _ b => b
  | .genSvc _ b => b

/-- Replace the beacon of a child service (the effect of reattach on the
object). -/
def SvcObj.setBeacon : SvcObj → Beacon → SvcObj
  | .appSvc a _, b => .appSvc a b
  | .genSvc n _, b => .genSvc n b

/-- The isinstance(s, AppT) test of Worker.__init__. -/
def SvcObj.asApp : SvcObj → Option AppT
  | .appSvc a _ => some a
  | .genSvc _ _ => none

/-- The Worker state the claims need: its ordered child services, its
sensors, its own beacon and its spinner. -/
structure Worker where
  services : List SvcObj
  sensors : List Nat
  beacon : Beacon
  spinner : Bool
deriving DecidableEq

/-- The beacon the Service base gives the root Worker: no parent. -/
def workerBeacon : Beacon := .top "worker"

/-- Worker.__init__ (faust/worker.py lines 95-119): record the services
and sensors, then reattach every child beacon under the Worker beacon:

    for service in self.services:
        service.beacon.reattach(self.beacon)
        assert service.beacon.root is self.beacon -/
def workerInit (services : List SvcObj) (sensors : List Nat) : Worker :=
  { services := services.map
      (fun s => s.setBeacon (Beacon.reattach s.beacon workerBeacon)),
    sensors := sensors,
    beacon := workerBeacon,
    spinner := true }

/-- The assert in the reattach loop of Worker.__init__, as one Boolean
over the constructed worker. -/
def initAsserts (w : Worker) : Bool :=
  w.services.all (fun s => s.beacon.root == w.beacon)

/-- self.apps: the Application children, in child order (the source
computes this list in __init__ by filtering services; the objects are
shared with services, so we derive it). -/
def Worker.apps (w : Worker) : List AppT :=
  w.services.filterMap SvcObj.asApp

/-- Worker.on_init_dependencies (faust/worker.py lines 218-222):

    for app in self.apps:
        for sensor in self.sensors:
            app.add_sensor(sensor)
    return self.services

The inner loop is the fold of add_sensor over the sensors; the returned
dependency set is the services list itself. -/
def Worker.on_init_dependencies (w : Worker) : Worker × List SvcObj :=
  let w2 : Worker :=
    { w with services := w.services.map (fun s =>
        match s with
        | .appSvc a b => .appSvc (w.sensors.foldl AppT.add_sensor a) b
        | .genSvc n b => .genSvc n b) }
  (w2, w2.services)

/-! ## Start ordering -/

/-- Events on the start path of the worker. -/
inductive LifeEv where
  | attachEv (appId : String) (sensor : Nat)
  | childStartEv (idx : Nat)
  | firstStartEv
deriving DecidableEq

/-- The add_sensor calls performed by on_init_dependencies, in source
order: outer loop over apps, inner loop over sensors. -/
def attachEvents (w : Worker) : List LifeEv :=
  ((Worker.apps w).map
    (fun a => w.sensors.map (fun x => LifeEv.attachEv a.id x))).flatten

/-- Modelled from the spec: Service.start of faust/utils/services.py is
not part of the given fragment.  Spec section 4.2: on_init_dependencies
runs once before starting; the returned dependency services start before
the owner on_first_start hook completes.  The trace of one worker
start. -/
def startTrace (w : Worker) : List LifeEv :=
  attachEvents w
    ++ (List.range (w.on_init_dependencies).2.length).map LifeEv.childStartEv
    ++ [LifeEv.firstStartEv]

/-- True when the list holds no attach event. -/
def noAttach : List LifeEv → Bool
  | [] => true
  | .attachEv _ _ :: _ => false
  | _ :: rest => noAttach rest

/-- True when every attach event in the list precedes every other kind of
event: a block of attaches, then no attach ever again. -/
def attachesFirst : List LifeEv → Bool
  | [] => true
  | .attachEv _ _ :: rest => attachesFirst rest
  | e :: rest => noAttach (e :: rest)

/-! ## The driver entry point

Worker.execute_from_commandline and Worker._execute_from_commandline
(faust/worker.py lines 179-198), with the steps recorded as a trace of
events alongside the Except outcome. -/

/-- Steps of _execute_from_commandline, in source order. -/
inductive DrvEv where
  | proctitleEv
  | bannerEv
  | monitorEv
  | sigHandlersEv
  | bootEv (i : Nat)
  | startEv
  | statsEv
  | waitEv
deriving DecidableEq

/-- Worker.faust_ident (faust/worker.py lines 131-139): formats f_ident
from self.apps[0].transport.driver_version and
self.apps[0].website.driver_version — indexing the first application
unconditionally, so an empty apps list raises IndexError. -/
def faust_ident (w : Worker) : Except PyErr String :=
  match Worker.apps w with
  | [] => .error .indexError
  | a :: _ =>
      .ok ("FAUST " ++ a.transport.driver_version ++ " "
            ++ a.website.driver_version)

/-- Worker.print_banner (faust/worker.py lines 141-152): formats f_banner
from faust_ident and the per-application identifiers and urls; any
exception from faust_ident propagates. -/
def print_banner (w : Worker) : Except PyErr String :=
  match faust_ident w with
  | .error e => .error e
  | .ok ident =>
      .ok (ident
            ++ " " ++ String.intercalate ", " ((Worker.apps w).map AppT.id)
            ++ " " ++ String.intercalate ", " ((Worker.apps w).map AppT.url)
            ++ " " ++ String.intercalate ", "
                ((Worker.apps w).map (fun a => a.website.url)))

/-- The await asyncio.gather over the bootstrap coroutines: record a boot
event per completed task, abort with the first failing task. -/
def gatherAux : Nat → List (Except PyErr Unit) → List DrvEv × Except PyErr Unit
  | _, [] => ([], .ok ())
  | i, .ok _ :: rest =>
      let p := gatherAux (i + 1) rest
      (DrvEv.bootEv i :: p.1, p.2)
  | _, .error e :: _ => ([], .error e)

/-- True when a bootstrap coroutine completed without raising. -/
def exOk : Except PyErr Unit → Bool
  | .ok _ => true
  | .error _ => false

/-- The boot events i, i + 1, ..., i + n - 1, one per completed bootstrap
task. -/
def bootEvs : Nat → Nat → List DrvEv
  | _, 0 => []
  | i, n + 1 => DrvEv.bootEv i :: bootEvs (i + 1) n

/-- Worker._execute_from_commandline (faust/worker.py lines 187-198):
setproctitle, print_banner, enter the monitor context, install signal
handlers, gather the bootstrap coroutines, await self.start(), await the
stats task, await wait_until_stopped.  Returns the trace of steps reached
together with the outcome. -/
def execBody (w : Worker) (boots : List (Except PyErr Unit)) :
    List DrvEv × Except PyErr Unit :=
  let t0 : List DrvEv := [.proctitleEv]
  match print_banner w with
  | .error e => (t0, .error e)
  | .ok _ =>
    let t1 := t0 ++ [DrvEv.bannerEv, DrvEv.monitorEv, DrvEv.sigHandlersEv]
    let g := gatherAux 0 boots
    match g.2 with
    | .error e => (t1 ++ g.1, .error e)
    | .ok _ =>
        (t1 ++ g.1 ++ [DrvEv.startEv, DrvEv.statsEv, DrvEv.waitEv], .ok ())

/-- Worker.execute_from_commandline (faust/worker.py lines 179-185): run
the body under loop.run_until_complete inside the RuntimeError guard. -/
def execute_from_commandline (w : Worker) (boots : List (Except PyErr Unit)) :
    List DrvEv × Except PyErr Unit :=
  let p := execBody w boots
  (p.1, executeGuard p.2)

/-! ## Concrete demonstration values used by witnesses -/

/-- A concrete application child. -/
def demoApp : AppT :=
  { id := "app1",
    url := "kafka://localhost",
    transport := { driver_version := "aiokafka 0.1" },
    website := { driver_version := "aiohttp 3", url := "http://localhost:8080" },
    sensors := [] }

/-- A worker with one application child and one sensor. -/
def demoWorker : Worker :=
  workerInit [SvcObj.appSvc demoApp (Beacon.top "app1")] [7]

/-! ## Helper lemmas for the signal machine -/

/-- Once the Service stop flag is set, one scheduler step keeps it set and
performs no further teardown. -/
theorem sigStep_stopped (r : Nat → Bool) (s : SigSys) (h : s.stopped = true) :
    (sigStep r s).stopped = true ∧ (sigStep r s).teardowns = s.teardowns := by
  rcases h2 : s.tasks with _ | ⟨pc, rest⟩
  · simp [sigStep, h2, h]
  · cases pc <;> simp [sigStep, h2, serviceStop, h]
    split <;> simp

/-- Once the Service stop flag is set, any number of scheduler steps keeps
it set and performs no further teardown. -/
theorem runSig_stopped (r : Nat → Bool) (fuel : Nat) :
    ∀ s : SigSys, s.stopped = true →
      (runSig r fuel s).stopped = true
      ∧ (runSig r fuel s).teardowns = s.teardowns := by
  induction fuel with
  | zero => intro s h; exact ⟨h, rfl⟩
  | succ n ih =>
      intro s h
      have hs := sigStep_stopped r s h
      have h2 := ih (sigStep r s) hs.1
      constructor
      · show (runSig r n (sigStep r s)).stopped = true
        exact h2.1
      · show (runSig r n (sigStep r s)).teardowns = s.teardowns
        rw [h2.2, hs.2]

/-- Running the machine for m + a steps is running it for a steps and then
for m steps. -/
theorem runSig_add (r : Nat → Bool) (m a : Nat) :
    ∀ s : SigSys, runSig r (m + a) s = runSig r m (runSig r a s) := by
  induction a with
  | zero => intro s; rfl
  | succ n ih => intro s; exact ih (sigStep r s)

/-- While the loop keeps reporting running, one step never closes the
loop, never raises SystemExit, and never drains the task queue. -/
theorem sigStep_alwaysRunning_live (s : SigSys)
    (h : s.closed = false ∧ s.exits = 0 ∧ s.tasks ≠ []) :
    (sigStep alwaysRunning s).closed = false
    ∧ (sigStep alwaysRunning s).exits = 0
    ∧ (sigStep alwaysRunning s).tasks ≠ [] := by
  rcases h2 : s.tasks with _ | ⟨pc, rest⟩
  · exact absurd h2 h.2.2
  · cases pc <;> simp [sigStep, h2, serviceStop, alwaysRunning, h.1, h.2.1]
    split <;> simp

/-- While the loop keeps reporting running, no number of steps closes the
loop, raises SystemExit, or drains the task queue. -/
theorem runSig_alwaysRunning_live (fuel : Nat) :
    ∀ s : SigSys, s.closed = false → s.exits = 0 → s.tasks ≠ [] →
      (runSig alwaysRunning fuel s).closed = false
      ∧ (runSig alwaysRunning fuel s).exits = 0
      ∧ (runSig alwaysRunning fuel s).tasks ≠ [] := by
  induction fuel with
  | zero => intro s h1 h2 h3; exact ⟨h1, h2, h3⟩
  | succ n ih =>
      intro s h1 h2 h3
      have hs := sigStep_alwaysRunning_live s ⟨h1, h2, h3⟩
      exact ih (sigStep alwaysRunning s) hs.1 hs.2.1 hs.2.2

/-- A single _stop_on_signal task sitting at the poll check, in an
environment that reports running for the first N polls: the poll loop runs
exactly N - k more wait iterations, then the task closes the loop and
raises SystemExit. -/
theorem pollTerm (N : Nat) : ∀ (j k : Nat), N - k = j → k ≤ N →
    ∀ s : SigSys, s.tasks = [StopPc.poll] → s.polls = k →
      ∃ m, (runSig (runningBefore N) m s).tasks = []
        ∧ (runSig (runningBefore N) m s).closed = true
        ∧ (runSig (runningBefore N) m s).exits = s.exits + 1
        ∧ (runSig (runningBefore N) m s).stopRequests
            = s.stopRequests + (N - k) := by
  intro j
  induction j with
  | zero =>
      intro k hj hk s ht hp
      have hkN : k = N := by omega
      have hrun : runningBefore N s.polls = false := by
        simp [runningBefore, hp, hkN]
      refine ⟨1, ?_⟩
      have e0 : runSig (runningBefore N) 1 s = sigStep (runningBefore N) s := rfl
      rw [e0, hj]
      simp [sigStep, ht, hrun]
  | succ n ih =>
      intro k hj hk s ht hp
      have hkN : k < N := by omega
      have hrun : runningBefore N s.polls = true := by
        simp [runningBefore, hp]; omega
      have e1 : sigStep (runningBefore N) s =
          { s with polls := s.polls + 1,
                   log := s.log ++ [LogEv.waitingForLoop],
                   stopRequests := s.stopRequests + 1,
                   tasks := [StopPc.sleeping] } := by
        simp [sigStep, ht, hrun]
      have e2 : runSig (runningBefore N) 2 s =
          { s with polls := s.polls + 1,
                   log := s.log ++ [LogEv.waitingForLoop],
                   stopRequests := s.stopRequests + 1,
                   tasks := [StopPc.poll] } := by
        show sigStep (runningBefore N) (sigStep (runningBefore N) s) = _
        rw [e1]
        simp [sigStep]
      obtain ⟨m, hm⟩ := ih (k + 1) (by omega) (by omega)
        { s with polls := s.polls + 1,
                 log := s.log ++ [LogEv.waitingForLoop],
                 stopRequests := s.stopRequests + 1,
                 tasks := [StopPc.poll] } rfl (by simp [hp])
      refine ⟨m + 2, ?_⟩
      rw [runSig_add (runningBefore N) m 2 s, e2]
      refine ⟨hm.1, hm.2.1, ?_, ?_⟩
      · simpa using hm.2.2.1
      · have := hm.2.2.2
        simp only at this
        rw [this]
        omega

/-! ## Claim C6 -/

/-- C6: Under the try/except of execute_from_commandline, an error is
swallowed if and only if it is of the benign race class — a RuntimeError
whose message contains the event-loop-stopped text; every error of any
other class, and every RuntimeError with any other message, propagates
unchanged, and a clean run stays clean. -/
theorem c6_benign_race_swallowed (e : PyErr) :
    (executeGuard (.error e) = .ok () ↔ benignRace e = true)
    ∧ executeGuard (.error e) = (if benignRace e then .ok () else .error e)
    ∧ executeGuard (.ok ()) = .ok () := by
  refine ⟨?_, ?_, rfl⟩ <;> cases e <;> simp [executeGuard, benignRace]

/-! ## Claim C5 -/

/-- C5: One delivery of the interrupt signal runs the handler
Worker._on_sigint, whose only effects are printing the -INT- banner and
scheduling one asynchronous _stop_on_signal task; the stop flag, teardown
count, poll count, stop requests, loop-closed flag, exit count and log are
all untouched, and the handler returns at once — the RuntimeError that
run_until_complete raises on the already-running loop is caught and
ignored. -/
theorem c5_handler_only_schedules (s : SigSys) :
    (sigDeliver s).stopped = s.stopped
    ∧ (sigDeliver s).teardowns = s.teardowns
    ∧ (sigDeliver s).polls = s.polls
    ∧ (sigDeliver s).stopRequests = s.stopRequests
    ∧ (sigDeliver s).closed = s.closed
    ∧ (sigDeliver s).exits = s.exits
    ∧ (sigDeliver s).log = s.log
    ∧ (sigDeliver s).tasks = s.tasks ++ [StopPc.begin]
    ∧ (sigDeliver s).out = s.out ++ [OutEv.intBanner]
    ∧ (onSigintH true s).2 = HandlerOutcome.returned :=
  ⟨rfl, rfl, rfl, rfl, rfl, rfl, rfl, rfl, rfl, rfl⟩

/-! ## Claim C1 -/

/-- C1 (counterexample): deliver the interrupt once and let the stop task
run its first segment — the teardown has run, the task is at the poll
check, nothing has exited: a stop is in progress.  Deliver the interrupt
again: the handler schedules a second _stop_on_signal task, and two
scheduler steps later the stop sequence entry has been logged twice while
the first sequence is still unfinished.  There is no one-shot
shutdown-request gate in the handler. -/
theorem c1_counterexample :
    ((sigStep alwaysRunning (sigDeliver sigInit)).teardowns = 1
      ∧ (sigStep alwaysRunning (sigDeliver sigInit)).exits = 0
      ∧ (sigStep alwaysRunning (sigDeliver sigInit)).tasks = [StopPc.poll])
    ∧ (sigDeliver (sigStep alwaysRunning (sigDeliver sigInit))).tasks
        = [StopPc.poll, StopPc.begin]
    ∧ (runSig alwaysRunning 2
        (sigDeliver (sigStep alwaysRunning (sigDeliver sigInit)))).log.count
          LogEv.stoppingOnSignal = 2
    ∧ (runSig alwaysRunning 2
        (sigDeliver (sigStep alwaysRunning (sigDeliver sigInit)))).exits
        = 0 := by
  decide

/-- C1 (amended): a second interrupt delivered while the stop started by
the first is in progress does schedule a second, overlapping
_stop_on_signal task — the handler has no gate — but the stop flag of the
Service base makes the teardown a one-shot: under every environment and
any number of scheduler steps the teardown has run exactly once; and with
a scheduler that quiesces after the first poll, both tasks drain, the loop
is closed and the stop path raises only the intended SystemExit (once per
task), with the RuntimeError in the handler already caught — no unhandled
error. -/
theorem c1_amended :
    (∀ (r r2 : Nat → Bool) (fuel : Nat),
        (runSig r2 fuel (sigDeliver (sigStep r (sigDeliver sigInit)))).teardowns
          = 1)
    ∧ (runSig (runningBefore 1) 8
        (sigDeliver (sigStep (runningBefore 1) (sigDeliver sigInit)))).tasks
        = []
    ∧ (runSig (runningBefore 1) 8
        (sigDeliver (sigStep (runningBefore 1) (sigDeliver sigInit)))).closed
        = true
    ∧ (runSig (runningBefore 1) 8
        (sigDeliver (sigStep (runningBefore 1) (sigDeliver sigInit)))).exits
        = 2
    ∧ (runSig (runningBefore 1) 8
        (sigDeliver (sigStep (runningBefore 1) (sigDeliver sigInit)))).teardowns
        = 1 := by
  refine ⟨?_, by decide, by decide, by decide, by decide⟩
  intro r r2 fuel
  have h1 : (sigDeliver (sigStep r (sigDeliver sigInit))).stopped = true := rfl
  have h2 : (sigDeliver (sigStep r (sigDeliver sigInit))).teardowns = 1 := rfl
  have h3 := runSig_stopped r2 fuel _ h1
  rw [h3.2, h2]

/-! ## Claim C4 -/

set_option maxRecDepth 8000 in
/-- C4 (counterexample): the poll loop of _stop_on_signal has no iteration
cap.  With the loop reporting running at every poll, 100 scheduler steps
after one interrupt the stop task has already run 50 wait iterations and
is still pending: the loop has not been closed and SystemExit has not been
raised. -/
theorem c4_counterexample :
    (runSig alwaysRunning 100 (sigDeliver sigInit)).closed = false
    ∧ (runSig alwaysRunning 100 (sigDeliver sigInit)).exits = 0
    ∧ (runSig alwaysRunning 100 (sigDeliver sigInit)).tasks
        = [StopPc.sleeping]
    ∧ (runSig alwaysRunning 100 (sigDeliver sigInit)).stopRequests = 50 := by
  decide

/-- C4 (amended): the poll loop is unbounded.  If the scheduler reports
running at every poll, then after any number of scheduler steps the stop
task has neither closed the loop nor raised SystemExit and is still
queued; if the scheduler stops reporting running after its N-th poll, the
stop task terminates after exactly N wait iterations, force-closes the
loop and raises SystemExit. -/
theorem c4_amended :
    (∀ fuel : Nat,
        (runSig alwaysRunning fuel (sigDeliver sigInit)).closed = false
        ∧ (runSig alwaysRunning fuel (sigDeliver sigInit)).exits = 0
        ∧ (runSig alwaysRunning fuel (sigDeliver sigInit)).tasks ≠ [])
    ∧ (∀ N : Nat, ∃ fuel : Nat,
        (runSig (runningBefore N) fuel (sigDeliver sigInit)).tasks = []
        ∧ (runSig (runningBefore N) fuel (sigDeliver sigInit)).closed = true
        ∧ (runSig (runningBefore N) fuel (sigDeliver sigInit)).exits = 1
        ∧ (runSig (runningBefore N) fuel (sigDeliver sigInit)).stopRequests
            = N) := by
  constructor
  · intro fuel
    exact runSig_alwaysRunning_live fuel (sigDeliver sigInit) rfl rfl
      (by decide)
  · intro N
    have e1 : sigStep (runningBefore N) (sigDeliver sigInit) =
        { stopped := true, teardowns := 1, tasks := [StopPc.poll],
          out := [OutEv.intBanner], log := [LogEv.stoppingOnSignal],
          polls := 0, stopRequests := 0, closed := false, exits := 0 } := rfl
    obtain ⟨m, hm⟩ := pollTerm N (N - 0) 0 rfl (Nat.zero_le N)
      { stopped := true, teardowns := 1, tasks := [StopPc.poll],
        out := [OutEv.intBanner], log := [LogEv.stoppingOnSignal],
        polls := 0, stopRequests := 0, closed := false, exits := 0 } rfl rfl
    refine ⟨m + 1, ?_⟩
    have e3 : runSig (runningBefore N) (m + 1) (sigDeliver sigInit)
        = runSig (runningBefore N) m
            (sigStep (runningBefore N) (sigDeliver sigInit)) := rfl
    rw [e3, e1]
    refine ⟨hm.1, hm.2.1, hm.2.2.1, ?_⟩
    have := hm.2.2.2
    simpa using this

/-! ## Helper lemmas for the stats loop -/

/-- Splitting a stats run: m + a ticks from time t are a ticks from t and
then m ticks from t + a. -/
theorem statsRun_add (flag : Nat → Bool) (m a : Nat) :
    ∀ (t : Nat) (s : StatsSt),
      statsRun flag t (m + a) s
        = statsRun flag (t + a) m (statsRun flag t a s) := by
  induction a with
  | zero => intro t s; rfl
  | succ n ih =>
      intro t s
      have e1 : statsRun flag t (m + (n + 1)) s
          = statsRun flag (t + 1) (m + n) (statsStep (flag t) s) := rfl
      have e2 : statsRun flag t (n + 1) s
          = statsRun flag (t + 1) n (statsStep (flag t) s) := rfl
      rw [e1, e2, ih (t + 1) (statsStep (flag t) s)]
      congr 1
      omega

/-- Once the coroutine has returned, further ticks change nothing. -/
theorem statsRun_done (flag : Nat → Bool) :
    ∀ (n t e : Nat),
      statsRun flag t n ⟨StatsPc.done, e⟩ = ⟨StatsPc.done, e⟩ := by
  intro n
  induction n with
  | zero => intro t e; rfl
  | succ m ih => intro t e; exact ih (t + 1) e

/-- A sleep with k ticks left runs to its print in k + 1 ticks, whatever
the stop flag does meanwhile: the print is unconditional. -/
theorem statsRun_sleep (flag : Nat → Bool) :
    ∀ (k t e : Nat),
      statsRun flag t (k + 1) ⟨StatsPc.sleeping k, e⟩
        = ⟨StatsPc.check, e + 1⟩ := by
  intro k
  induction k with
  | zero => intro t e; rfl
  | succ n ih =>
      intro t e
      have e1 : statsRun flag t (n + 1 + 1) ⟨StatsPc.sleeping (n + 1), e⟩
          = statsRun flag (t + 1) (n + 1) ⟨StatsPc.sleeping n, e⟩ := rfl
      rw [e1, ih]

/-- With the stop flag true from time t on, a run of any length prints at
most statsCap more summaries. -/
theorem statsRun_bound (flag : Nat → Bool) :
    ∀ (n t : Nat) (s : StatsSt), (∀ u, t ≤ u → flag u = true) →
      (statsRun flag t n s).emits ≤ s.emits + statsCap s.pc := by
  intro n
  induction n with
  | zero => intro t s h; exact Nat.le_add_right s.emits (statsCap s.pc)
  | succ m ih =>
      intro t s h
      have hft : flag t = true := h t (Nat.le_refl t)
      have hnext : ∀ u, t + 1 ≤ u → flag u = true := fun u hu => h u (by omega)
      have e1 : statsRun flag t (m + 1) s
          = statsRun flag (t + 1) m (statsStep (flag t) s) := rfl
      rw [e1, hft]
      rcases s with ⟨pc, e⟩
      match pc with
      | .check =>
          have h2 := ih (t + 1) ⟨.done, e⟩ hnext
          simpa [statsStep, statsCap] using h2
      | .sleeping (k + 1) =>
          have h2 := ih (t + 1) ⟨.sleeping k, e⟩ hnext
          simpa [statsStep, statsCap] using h2
      | .sleeping 0 =>
          have h2 := ih (t + 1) ⟨.check, e + 1⟩ hnext
          simpa [statsStep, statsCap] using h2
      | .done =>
          have h2 := ih (t + 1) ⟨.done, e⟩ hnext
          simpa [statsStep, statsCap] using h2

/-- With the stop flag true from time t on, the loop reaches done. -/
theorem statsRun_reaches_done (flag : Nat → Bool) (t : Nat) (s : StatsSt)
    (h : ∀ u, t ≤ u → flag u = true) :
    ∃ n, (statsRun flag t n s).pc = StatsPc.done := by
  rcases s with ⟨pc, e⟩
  match pc with
  | .done => exact ⟨0, rfl⟩
  | .check =>
      refine ⟨1, ?_⟩
      have e1 : statsRun flag t 1 ⟨StatsPc.check, e⟩
          = statsStep (flag t) ⟨StatsPc.check, e⟩ := rfl
      rw [e1, h t (Nat.le_refl t)]
      rfl
  | .sleeping k =>
      refine ⟨1 + (k + 1), ?_⟩
      rw [statsRun_add flag 1 (k + 1) t ⟨StatsPc.sleeping k, e⟩,
        statsRun_sleep]
      have e3 : statsRun flag (t + (k + 1)) 1 ⟨StatsPc.check, e + 1⟩
          = statsStep (flag (t + (k + 1))) ⟨StatsPc.check, e + 1⟩ := rfl
      rw [e3, h (t + (k + 1)) (by omega)]
      rfl

/-! ## Claim C2 -/

/-- C2 (counterexample): run the stats loop against a stop flag that
becomes true at time 1.  At time 0 the loop enters its sleep; by time 2
the flag is true, the iteration is in flight (mid-sleep) and nothing has
been printed yet; but after the sleep elapses the loop prints anyway — by
tick 7 one summary has been emitted, after the stop flag became true.  The
flag is only consulted at the top of the loop, not after the sleep. -/
theorem c2_counterexample :
    (fun u => decide (1 ≤ u)) 1 = true
    ∧ (statsRun (fun u => decide (1 ≤ u)) 0 2 statsInit).emits = 0
    ∧ (statsRun (fun u => decide (1 ≤ u)) 0 2 statsInit).pc
        = StatsPc.sleeping 4
    ∧ (statsRun (fun u => decide (1 ≤ u)) 0 7 statsInit).emits = 1 := by
  decide

/-- C2 (amended): once the stop flag is true and stays true, the stats
loop emits at most one further summary — exactly the one whose sleep was
already in flight when the flag became true — and then observes the flag
and reaches its done state; statsStep is a total function with no error
outcome, so the loop exits without raising. -/
theorem c2_amended (flag : Nat → Bool) (t : Nat) (s : StatsSt)
    (h : ∀ u, t ≤ u → flag u = true) :
    (∀ n, (statsRun flag t n s).emits ≤ s.emits + 1)
    ∧ ∃ n, (statsRun flag t n s).pc = StatsPc.done := by
  constructor
  · intro n
    have h1 := statsRun_bound flag n t s h
    have hc : statsCap s.pc ≤ 1 := by
      rcases s with ⟨pc, e⟩
      cases pc <;> simp [statsCap]
    omega
  · exact statsRun_reaches_done flag t s h

/-- Witness for c2_amended: the stop flag constantly true from launch. -/
theorem c2_amended_witness :
    (∀ n, (statsRun (fun _ => true) 0 n statsInit).emits
        ≤ statsInit.emits + 1)
    ∧ ∃ n, (statsRun (fun _ => true) 0 n statsInit).pc = StatsPc.done :=
  c2_amended (fun _ => true) 0 statsInit (fun _ _ => rfl)

/-! ## Helper lemmas for the readiness transition -/

/-- Invoking on_startup_finished over a list of times only appends timers:
one per invocation, due 3 after it; spinner and prints untouched. -/
theorem startup_foldl (calls : List Nat) :
    ∀ s : ReadySt,
      ((calls.foldl (fun st u => on_startup_finished u st) s).timers
          = s.timers ++ calls.map (fun u => u + 3))
      ∧ (calls.foldl (fun st u => on_startup_finished u st) s).spinner
          = s.spinner
      ∧ (calls.foldl (fun st u => on_startup_finished u st) s).readyEmits
          = s.readyEmits := by
  induction calls with
  | nil => intro s; simp
  | cons a rest ih =>
      intro s
      have h2 := ih (on_startup_finished a s)
      simpa [on_startup_finished, List.append_assoc] using h2

/-- Once the spinner is gone, the deferred callback is a no-op however
many times the loop invokes it. -/
theorem fire_spinner_false :
    ∀ (l : List Nat) (s : ReadySt), s.spinner = false →
      l.foldl (fun st _ => onStartupFinishedCb st) s = s := by
  intro l
  induction l with
  | nil => intro s h; rfl
  | cons a rest ih =>
      intro s h
      have e1 : onStartupFinishedCb s = s := by
        simp [onStartupFinishedCb, h]
      simp only [List.foldl_cons, e1]
      exact ih s h

/-- With the spinner present, invoking the deferred callback once per
registered timer prints the ready line exactly once: the first invocation
prints and clears the spinner, every later one is a no-op. -/
theorem fire_once (l : List Nat) (s : ReadySt)
    (h : s.spinner = true) (hne : l ≠ []) :
    ((l.foldl (fun st _ => onStartupFinishedCb st) s).readyEmits
        = s.readyEmits + 1)
    ∧ (l.foldl (fun st _ => onStartupFinishedCb st) s).spinner = false := by
  rcases l with _ | ⟨a, rest⟩
  · exact absurd rfl hne
  · have e1 : onStartupFinishedCb s
        = { s with spinner := false, readyEmits := s.readyEmits + 1 } := by
      simp [onStartupFinishedCb, h]
    have e2 := fire_spinner_false rest
      { s with spinner := false, readyEmits := s.readyEmits + 1 } rfl
    simp [List.foldl_cons, e1, e2]

/-! ## Claim C3 -/

/-- C3 (counterexample): invoking on_startup_finished twice (at times 0
and 1) registers two deferred callbacks, due at 3 and 4 — re-invocation
does schedule duplicate deferred transitions; there is no one-shot guard
at scheduling time. -/
theorem c3_counterexample :
    (on_startup_finished 1 (on_startup_finished 0 readyInit)).timers
      = [3, 4] := by
  decide

/-- C3 (amended): every invocation of on_startup_finished registers one
more deferred callback (no guard at scheduling time), each due 3 time
units after its own invocation — hence none earlier than 3 after the
first; but the readiness transition itself fires exactly once no matter
how many callbacks later run, because the spinner check in
_on_startup_finished is a one-shot: the first callback prints the ready
line and clears the spinner, all further callbacks are no-ops. -/
theorem c3_amended (calls : List Nat) (t0 : Nat)
    (h1 : calls.head? = some t0) (h2 : ∀ u ∈ calls, t0 ≤ u) :
    ((calls.foldl (fun st u => on_startup_finished u st) readyInit).timers.length
        = calls.length)
    ∧ (∀ d ∈ (calls.foldl (fun st u => on_startup_finished u st)
          readyInit).timers, t0 + 3 ≤ d)
    ∧ (fireTimers (calls.foldl (fun st u => on_startup_finished u st)
          readyInit)).readyEmits = 1 := by
  have hf := startup_foldl calls readyInit
  refine ⟨?_, ?_, ?_⟩
  · rw [hf.1]
    simp [readyInit]
  · intro d hd
    rw [hf.1] at hd
    simp only [readyInit, List.nil_append, List.mem_map] at hd
    obtain ⟨u, hu, he⟩ := hd
    have h3 := h2 u hu
    omega
  · have hcne : calls ≠ [] := by
      intro hc
      rw [hc] at h1
      cases h1
    have hs : (calls.foldl (fun st u => on_startup_finished u st)
        readyInit).spinner = true := by
      rw [hf.2.1]
      rfl
    have hne : (calls.foldl (fun st u => on_startup_finished u st)
        readyInit).timers ≠ [] := by
      rw [hf.1]
      simp [readyInit, hcne]
    have hz := fire_once
      ((calls.foldl (fun st u => on_startup_finished u st) readyInit).timers)
      { (calls.foldl (fun st u => on_startup_finished u st) readyInit)
          with timers := [] }
      hs hne
    unfold fireTimers
    rw [hz.1]
    have h9 := hf.2.2
    simp only [readyInit] at h9
    simp [readyInit, h9]

/-- Witness for c3_amended: on_startup_finished invoked at times 0 and
1. -/
theorem c3_amended_witness :
    (([0, 1].foldl (fun st u => on_startup_finished u st)
        readyInit).timers.length = [0, 1].length)
    ∧ (∀ d ∈ ([0, 1].foldl (fun st u => on_startup_finished u st)
          readyInit).timers, 0 + 3 ≤ d)
    ∧ (fireTimers ([0, 1].foldl (fun st u => on_startup_finished u st)
          readyInit)).readyEmits = 1 :=
  c3_amended [0, 1] 0 rfl (by decide)

/-! ## Helper lemmas for beacons and the worker tree -/

/-- Reattaching rebinds the parent, so the root becomes the new parent
root. -/
theorem root_reattach (b p : Beacon) :
    (Beacon.reattach b p).root = p.root := by
  cases b <;> rfl

/-- Replacing the beacon of a service object stores exactly that
beacon. -/
theorem setBeacon_beacon (s : SvcObj) (b : Beacon) :
    (s.setBeacon b).beacon = b := by
  cases s <;> rfl

/-! ## Claim C8 -/

/-- C8: for every sequence of child services and sensors, immediately
after Worker.__init__ every child beacon root equals the Worker beacon
(each child was reattached under it), and the assert checked inside the
construction loop holds for every child. -/
theorem c8_beacon_roots (services : List SvcObj) (sensors : List Nat) :
    initAsserts (workerInit services sensors) = true
    ∧ ∀ s ∈ (workerInit services sensors).services,
        s.beacon.root = (workerInit services sensors).beacon := by
  have key : ∀ s ∈ (workerInit services sensors).services,
      s.beacon.root = (workerInit services sensors).beacon := by
    intro s hs
    simp only [workerInit, List.mem_map] at hs
    obtain ⟨x, hx, rfl⟩ := hs
    rw [setBeacon_beacon, root_reattach]
    rfl
  refine ⟨?_, key⟩
  unfold initAsserts
  rw [List.all_eq_true]
  intro s hs
  have h2 := key s hs
  simp [h2]

/-- Witness for c8_beacon_roots: one generic child whose beacon starts
off elsewhere. -/
theorem c8_witness :
    (SvcObj.beacon ((SvcObj.genSvc "svc" (Beacon.under "svc" (Beacon.top "old"))).setBeacon
        ((Beacon.under "svc" (Beacon.top "old")).reattach workerBeacon))).root
      = (workerInit [SvcObj.genSvc "svc" (Beacon.under "svc" (Beacon.top "old"))]
          []).beacon :=
  (c8_beacon_roots [SvcObj.genSvc "svc" (Beacon.under "svc" (Beacon.top "old"))]
      []).2 _ (by decide)

/-! ## Helper lemmas for sensor wiring and start order -/

/-- Folding add_sensor over a sensor list appends exactly that list to
the application sensors. -/
theorem add_sensor_foldl (l : List Nat) :
    ∀ a : AppT, (l.foldl AppT.add_sensor a).sensors = a.sensors ++ l := by
  induction l with
  | nil => intro a; simp
  | cons x rest ih =>
      intro a
      simp [List.foldl_cons, AppT.add_sensor, ih, List.append_assoc]

/-- Appending preserves having no attach event. -/
theorem noAttach_append (l1 l2 : List LifeEv) :
    noAttach (l1 ++ l2) = (noAttach l1 && noAttach l2) := by
  induction l1 with
  | nil => simp [noAttach]
  | cons e rest ih =>
      cases e <;> simp [noAttach, ih]

/-- Child-start events hold no attach event. -/
theorem noAttach_childStarts (l : List Nat) :
    noAttach (l.map LifeEv.childStartEv) = true := by
  induction l with
  | nil => rfl
  | cons a rest ih => simpa [noAttach] using ih

/-- A list with no attach event trivially has all its attaches first. -/
theorem attachesFirst_of_noAttach (l : List LifeEv)
    (h : noAttach l = true) : attachesFirst l = true := by
  cases l with
  | nil => rfl
  | cons e rest =>
      cases e with
      | attachEv i x => simp [noAttach] at h
      | childStartEv i => simpa [attachesFirst, noAttach] using h
      | firstStartEv => simpa [attachesFirst, noAttach] using h

/-- A block of attach events followed by a list with no attach event has
all its attaches first. -/
theorem attachesFirst_block (l1 l2 : List LifeEv)
    (h1 : ∀ e ∈ l1, ∃ i x, e = LifeEv.attachEv i x)
    (h2 : noAttach l2 = true) :
    attachesFirst (l1 ++ l2) = true := by
  induction l1 with
  | nil => simpa using attachesFirst_of_noAttach l2 h2
  | cons e rest ih =>
      obtain ⟨i, x, rfl⟩ := h1 e (List.mem_cons_self e rest)
      have h3 : ∀ e2 ∈ rest, ∃ i x, e2 = LifeEv.attachEv i x :=
        fun e2 he2 => h1 e2 (List.mem_cons_of_mem _ he2)
      simpa [attachesFirst] using ih h3

/-! ## Claim C9 -/

/-- C9: on_init_dependencies attaches every configured sensor to every
application child — in the start trace all attach events precede every
child start and the first-start hook — and returns exactly the full
ordered child-service sequence of the worker (same list object, one entry
per child). -/
theorem c9_init_dependencies (w : Worker) :
    ((w.on_init_dependencies).2 = (w.on_init_dependencies).1.services)
    ∧ ((w.on_init_dependencies).2.length = w.services.length)
    ∧ (∀ a ∈ Worker.apps (w.on_init_dependencies).1,
        ∀ x ∈ w.sensors, x ∈ a.sensors)
    ∧ attachesFirst (startTrace w) = true := by
  refine ⟨rfl, ?_, ?_, ?_⟩
  · simp [Worker.on_init_dependencies]
  · intro a ha x hx
    simp only [Worker.on_init_dependencies, Worker.apps, List.filterMap_map,
      List.mem_filterMap] at ha
    obtain ⟨s, hs, he⟩ := ha
    cases s with
    | appSvc a0 b =>
        simp only [Function.comp, SvcObj.asApp, Option.some.injEq] at he
        rw [← he, add_sensor_foldl]
        exact List.mem_append_right _ hx
    | genSvc n b =>
        simp [Function.comp, SvcObj.asApp] at he
  · unfold startTrace
    rw [List.append_assoc]
    apply attachesFirst_block
    · intro e he
      simp only [attachEvents, List.mem_flatten, List.mem_map] at he
      obtain ⟨inner, ⟨a, ha, rfl⟩, hein⟩ := he
      obtain ⟨x, hx, rfl⟩ := List.mem_map.mp hein
      exact ⟨a.id, x, rfl⟩
    · rw [noAttach_append, noAttach_childStarts]
      decide

/-- Witness for c9_init_dependencies: the worker with one application and
sensor 7. -/
theorem c9_witness :
    7 ∈ ((Worker.apps (demoWorker.on_init_dependencies).1).headD
        demoApp).sensors :=
  (c9_init_dependencies demoWorker).2.2.1
    ((Worker.apps (demoWorker.on_init_dependencies).1).headD demoApp)
    (by decide) 7 (by decide)

/-! ## Helper lemmas for the driver entry point -/

/-- One boot event per bootstrap task. -/
theorem bootEvs_length : ∀ (n i : Nat), (bootEvs i n).length = n := by
  intro n
  induction n with
  | zero => intro i; rfl
  | succ m ih => intro i; simp [bootEvs, ih]

/-- Every event bootEvs produces is a boot event. -/
theorem bootEvs_events : ∀ (n i : Nat), ∀ ev ∈ bootEvs i n,
    ∃ k, ev = DrvEv.bootEv k := by
  intro n
  induction n with
  | zero => intro i ev hev; simp [bootEvs] at hev
  | succ m ih =>
      intro i ev hev
      simp only [bootEvs, List.mem_cons] at hev
      rcases hev with rfl | hev
      · exact ⟨i, rfl⟩
      · exact ih (i + 1) ev hev

/-- With at least one application child, print_banner succeeds. -/
theorem print_banner_ok (w : Worker) (a : AppT) (rest : List AppT)
    (h : Worker.apps w = a :: rest) :
    ∃ str, print_banner w = Except.ok str := by
  refine ⟨?_, ?_⟩
  · exact ("FAUST " ++ a.transport.driver_version ++ " "
        ++ a.website.driver_version)
      ++ " " ++ String.intercalate ", " ((Worker.apps w).map AppT.id)
      ++ " " ++ String.intercalate ", " ((Worker.apps w).map AppT.url)
      ++ " " ++ String.intercalate ", "
          ((Worker.apps w).map (fun a2 => a2.website.url))
  · simp [print_banner, faust_ident, h]

/-- When every bootstrap task completes, the gather yields one boot event
per task, in order, and succeeds. -/
theorem gatherAux_ok : ∀ (boots : List (Except PyErr Unit)),
    boots.all exOk = true → ∀ i,
      gatherAux i boots = (bootEvs i boots.length, Except.ok ()) := by
  intro boots
  induction boots with
  | nil => intro h i; rfl
  | cons b rest ih =>
      intro h i
      cases b with
      | ok u =>
          have h2 : rest.all exOk = true := by simpa [exOk] using h
          simp [gatherAux, ih h2 (i + 1), bootEvs]
      | error e => simp [exOk] at h

/-- When some bootstrap task fails, the gather raises. -/
theorem gatherAux_err : ∀ (boots : List (Except PyErr Unit)),
    boots.all exOk = false → ∀ i,
      ∃ e, (gatherAux i boots).2 = Except.error e := by
  intro boots
  induction boots with
  | nil => intro h; simp at h
  | cons b rest ih =>
      intro h i
      cases b with
      | ok u =>
          have h2 : rest.all exOk = false := by simpa [exOk] using h
          obtain ⟨e, he⟩ := ih h2 (i + 1)
          exact ⟨e, by simp [gatherAux, he]⟩
      | error e => exact ⟨e, rfl⟩

/-- Every event the gather records is a boot event. -/
theorem gatherAux_events : ∀ (boots : List (Except PyErr Unit)) (i : Nat),
    ∀ ev ∈ (gatherAux i boots).1, ∃ k, ev = DrvEv.bootEv k := by
  intro boots
  induction boots with
  | nil => intro i ev hev; simp [gatherAux] at hev
  | cons b rest ih =>
      intro i ev hev
      cases b with
      | ok u =>
          simp only [gatherAux, List.mem_cons] at hev
          rcases hev with rfl | hev
          · exact ⟨i, rfl⟩
          · exact ih (i + 1) ev hev
      | error e => simp [gatherAux] at hev

/-! ## Claim C7 -/

/-- C7: with at least one application child, the driver body runs every
caller-supplied bootstrap task to completion — one boot event per task —
strictly before starting the Worker, then starts it, then launches the
stats loop, then blocks until stop; and if any bootstrap task fails, the
sequence aborts with that failure and the start step is never
reached. -/
theorem c7_driver_sequencing (w : Worker) (boots : List (Except PyErr Unit))
    (happ : Worker.apps w ≠ []) :
    (boots.all exOk = true →
      execBody w boots
        = ([DrvEv.proctitleEv, DrvEv.bannerEv, DrvEv.monitorEv,
              DrvEv.sigHandlersEv]
            ++ bootEvs 0 boots.length
            ++ [DrvEv.startEv, DrvEv.statsEv, DrvEv.waitEv],
           Except.ok ())
      ∧ (bootEvs 0 boots.length).length = boots.length)
    ∧ (boots.all exOk = false →
        DrvEv.startEv ∉ (execBody w boots).1
        ∧ (execBody w boots).2 ≠ Except.ok ()) := by
  rcases ha : Worker.apps w with _ | ⟨a, rest⟩
  · exact absurd ha happ
  obtain ⟨str, hb⟩ := print_banner_ok w a rest ha
  constructor
  · intro hall
    have hg := gatherAux_ok boots hall 0
    constructor
    · simp [execBody, hb, hg]
    · exact bootEvs_length boots.length 0
  · intro hfail
    obtain ⟨e, hg⟩ := gatherAux_err boots hfail 0
    have hbody : execBody w boots
        = ([DrvEv.proctitleEv, DrvEv.bannerEv, DrvEv.monitorEv,
              DrvEv.sigHandlersEv] ++ (gatherAux 0 boots).1,
           Except.error e) := by
      simp only [execBody, hb]
      rw [hg]
      simp
    constructor
    · rw [hbody]
      simp only [List.mem_append, not_or]
      constructor
      · decide
      · intro hmem
        obtain ⟨k, hk⟩ := gatherAux_events boots 0 DrvEv.startEv hmem
        cases hk
    · rw [hbody]
      simp

/-- Witness for c7_driver_sequencing: the one-application worker with one
succeeding bootstrap task, and with one failing bootstrap task. -/
theorem c7_witness :
    (execBody demoWorker ([Except.ok ()] : List (Except PyErr Unit))
        = ([DrvEv.proctitleEv, DrvEv.bannerEv, DrvEv.monitorEv,
              DrvEv.sigHandlersEv]
            ++ bootEvs 0 ([Except.ok ()] : List (Except PyErr Unit)).length
            ++ [DrvEv.startEv, DrvEv.statsEv, DrvEv.waitEv],
           Except.ok ())
      ∧ (bootEvs 0 ([Except.ok ()] : List (Except PyErr Unit)).length).length
          = ([Except.ok ()] : List (Except PyErr Unit)).length)
    ∧ (DrvEv.startEv
        ∉ (execBody demoWorker
            [Except.error (PyErr.valueError "boom")]).1
      ∧ (execBody demoWorker [Except.error (PyErr.valueError "boom")]).2
          ≠ Except.ok ()) :=
  ⟨(c7_driver_sequencing demoWorker [Except.ok ()] (by decide)).1 (by decide),
   (c7_driver_sequencing demoWorker [Except.error (PyErr.valueError "boom")]
      (by decide)).2 (by decide)⟩

/-! ## Claim C10 -/

/-- A worker built from generic (non-application) children has no
applications. -/
theorem apps_genOnly (gens : List (String × Beacon)) (sensors : List Nat) :
    Worker.apps
        (workerInit (gens.map (fun g => SvcObj.genSvc g.1 g.2)) sensors)
      = [] := by
  induction gens with
  | nil => rfl
  | cons g rest ih =>
      simp only [Worker.apps, workerInit, List.map_cons, SvcObj.setBeacon,
        SvcObj.asApp, List.filterMap_cons] at ih ⊢
      exact ih

/-- C10: for every Worker constructed with zero application children (any
generic children, sensors and bootstrap tasks), the driver entry point
fails with IndexError raised while print_banner renders the startup
banner via faust_ident — the trace stops at the process-title step, so
signal handlers were never installed and no start was reached; the
RuntimeError guard does not swallow IndexError, so it propagates out of
execute_from_commandline. -/
theorem c10_zero_apps_banner (gens : List (String × Beacon))
    (sensors : List Nat) (boots : List (Except PyErr Unit)) :
    execute_from_commandline
        (workerInit (gens.map (fun g => SvcObj.genSvc g.1 g.2)) sensors) boots
      = ([DrvEv.proctitleEv], Except.error PyErr.indexError)
    ∧ DrvEv.sigHandlersEv
        ∉ (execute_from_commandline
            (workerInit (gens.map (fun g => SvcObj.genSvc g.1 g.2)) sensors)
            boots).1
    ∧ DrvEv.startEv
        ∉ (execute_from_commandline
            (workerInit (gens.map (fun g => SvcObj.genSvc g.1 g.2)) sensors)
            boots).1 := by
  have ha := apps_genOnly gens sensors
  have hfi : faust_ident
      (workerInit (gens.map (fun g => SvcObj.genSvc g.1 g.2)) sensors)
      = Except.error PyErr.indexError := by
    simp [faust_ident, ha]
  have hpb : print_banner
      (workerInit (gens.map (fun g => SvcObj.genSvc g.1 g.2)) sensors)
      = Except.error PyErr.indexError := by
    simp [print_banner, hfi]
  have hbody : execBody
      (workerInit (gens.map (fun g => SvcObj.genSvc g.1 g.2)) sensors) boots
      = ([DrvEv.proctitleEv], Except.error PyErr.indexError) := by
    simp [execBody, hpb]
  refine ⟨?_, ?_, ?_⟩
  · simp [execute_from_commandline, hbody, executeGuard]
  · simp [execute_from_commandline, hbody]
  · simp [execute_from_commandline, hbody]

end Faust


